import Mathlib

/- `Rat.add`, `Rat.mul`, `Rat.inv` and `Rat.sub` are `@[irreducible]` in core;
lifting that lets `decide` evaluate the exact rational arithmetic of the
embedding. -/
unseal Rat.add Rat.mul Rat.inv Rat.sub

/-!
# Verification of the receipt/order matching core (RA-Company)

Shallow embedding of the modules `modules/excel_handler_with_pyxl.py` and
`modules/matcher.py`:

* the Excel day-serial codec (`excel_serial_to_datetime`, `_dt_to_excel_serial`),
* the receipt timestamp parser (`OrderMatcher.parse_receipt_datetime`,
  i.e. `strptime` with formats `%Y-%m-%d %H:%M:%S` and `%Y-%m-%d`),
* the fuzzy product-name matcher (`OrderMatcher.match_product_name`, built on
  `difflib.SequenceMatcher.ratio`),
* the cascade (`OrderMatcher.find_matching_orders`, `match_date`, `match_time`),
* the writer (`OrderMatcher.update_customer_info`, `group_by_order_time`,
  `format_items_for_description`) over an explicit worksheet model, and
* the driver `OrderMatcher.match_order`.

Numeric cell values and day-serials are modelled as exact rationals (the Python
code computes with binary floats and microsecond-quantised `datetime`s; the
claims under study are far from any float-rounding boundary).  A Python
`datetime` is modelled as a calendar-date offset from the Excel epoch
1899-12-30 together with the exact seconds elapsed since midnight.
-/

namespace RACompany

/-- Python `datetime.date` ordinal arithmetic (`datetime._ymd2ord`): day count
of the proleptic Gregorian date `y-m-d` with day 1 = 0001-01-01. -/
def isLeapYear (y : Nat) : Bool :=
  y % 4 = 0 && (y % 100 ≠ 0 || y % 400 = 0)

/-- Cumulative days before month `m` in a non-leap year. -/
def daysBeforeMonth (m : Nat) : Nat :=
  match m with
  | 1 => 0 | 2 => 31 | 3 => 59 | 4 => 90 | 5 => 120 | 6 => 151
  | 7 => 181 | 8 => 212 | 9 => 243 | 10 => 273 | 11 => 304 | 12 => 334
  | _ => 0

/-- Number of days in month `m` of year `y` (Python `calendar`/`datetime`). -/
def daysInMonth (y m : Nat) : Nat :=
  match m with
  | 1 => 31 | 2 => if isLeapYear y then 29 else 28 | 3 => 31 | 4 => 30
  | 5 => 31 | 6 => 30 | 7 => 31 | 8 => 31 | 9 => 30 | 10 => 31
  | 11 => 30 | 12 => 31
  | _ => 0

/-- Python `datetime.toordinal()` for the date `y-m-d`. -/
def ymd2ord (y m d : Nat) : Nat :=
  (y - 1) * 365 + (y - 1) / 4 - (y - 1) / 100 + (y - 1) / 400
    + daysBeforeMonth m + (if 2 < m ∧ isLeapYear y then 1 else 0) + d

/-- Ordinal of `EXCEL_EPOCH = datetime(1899, 12, 30)`
(`excel_handler_with_pyxl.py`, line 16). -/
def excelEpochOrd : Nat := ymd2ord 1899 12 30

/-- A Python `datetime` value: `dayOff` is the calendar date as a day offset
from the Excel epoch 1899-12-30 and `sec` the exact seconds since midnight
(`0 ≤ sec < 86400` for values produced by the embedded code). -/
structure PyDateTime where
  dayOff : ℤ
  sec : ℚ
deriving DecidableEq

/-- Python `datetime` comparison `x <= y` (lexicographic on date, time). -/
def pyLE (x y : PyDateTime) : Prop :=
  x.dayOff < y.dayOff ∨ (x.dayOff = y.dayOff ∧ x.sec ≤ y.sec)

/-- Python `datetime` comparison `x < y`. -/
def pyLT (x y : PyDateTime) : Prop :=
  x.dayOff < y.dayOff ∨ (x.dayOff = y.dayOff ∧ x.sec < y.sec)

instance (x y : PyDateTime) : Decidable (pyLE x y) := by
  unfold pyLE; infer_instance

instance (x y : PyDateTime) : Decidable (pyLT x y) := by
  unfold pyLT; infer_instance

/-- `excel_serial_to_datetime(serial) = EXCEL_EPOCH + timedelta(days=serial)`
(`excel_handler_with_pyxl.py`, lines 20-22): the resulting `datetime` has
calendar date `epoch + ⌊serial⌋` days and time-of-day `frac(serial) * 86400`
seconds. -/
def excelSerialToDatetime (serial : ℚ) : PyDateTime :=
  ⟨⌊serial⌋, (serial - ⌊serial⌋) * 86400⟩

/-- `datetime(1900, 1, 1)` as a day offset from the Excel epoch. -/
def d19000101 : PyDateTime := ⟨(ymd2ord 1900 1 1 : ℤ) - excelEpochOrd, 0⟩

/-- `LEAP_BUG_CUTOFF = datetime(1900, 3, 1)` as a day offset from the epoch. -/
def leapBugCutoff : PyDateTime := ⟨(ymd2ord 1900 3 1 : ℤ) - excelEpochOrd, 0⟩

/-- The serial computed by `_dt_to_excel_serial` before the integer collapse:
`(dt - EXCEL_EPOCH).days + seconds_since_midnight/86400`, minus 1 inside the
leap-bug window `1900-01-01 <= dt < 1900-03-01`
(`excel_handler_with_pyxl.py`, lines 28-32). -/
def rawExcelSerial (dt : PyDateTime) : ℚ :=
  let serial : ℚ := (dt.dayOff : ℚ) + dt.sec / 86400
  if pyLE d19000101 dt ∧ pyLT dt leapBugCutoff then serial - 1 else serial

/-- Python `int()` truncation toward zero, as a rational. -/
def pyInt (q : ℚ) : ℚ := if 0 ≤ q then (⌊q⌋ : ℚ) else (⌈q⌉ : ℚ)

/-- `_dt_to_excel_serial(dt)` (`excel_handler_with_pyxl.py`, lines 28-34):
the raw serial, collapsed to `int(serial)` when
`abs(serial - round(serial)) < 1e-9`. -/
def dtToExcelSerial (dt : PyDateTime) : ℚ :=
  let serial := rawExcelSerial dt
  if |serial - round serial| < 1 / 1000000000 then pyInt serial else serial

/-! ## Receipt timestamp parsing (`OrderMatcher.parse_receipt_datetime`) -/

/-- Greedy digit munch: consume up to `maxN` leading decimal digits
(the behaviour of the `\d{1,n}` patterns `strptime` compiles, which never
need to backtrack here because every delimiter is a non-digit). -/
def takeDigits (maxN : Nat) (cs : List Char) : List Char × List Char :=
  match maxN, cs with
  | 0, cs => ([], cs)
  | _ + 1, [] => ([], [])
  | n + 1, c :: rest =>
    if c.isDigit then
      let (ds, r) := takeDigits n rest
      (c :: ds, r)
    else ([], c :: rest)

/-- Numeric value of a digit string. -/
def natOfDigits (ds : List Char) : Nat :=
  ds.foldl (fun a c => a * 10 + (c.toNat - 48)) 0

/-- Parse `%Y-%m-%d` (`%Y` is exactly four digits, `%m`/`%d` one or two),
returning the fields and the unconsumed rest. -/
def parseYMD (cs : List Char) : Option (Nat × Nat × Nat × List Char) :=
  let (ys, r1) := takeDigits 4 cs
  if ys.length = 4 then
    match r1 with
    | '-' :: r2 =>
      let (ms, r3) := takeDigits 2 r2
      if ms.length = 0 then none else
      match r3 with
      | '-' :: r4 =>
        let (ds, r5) := takeDigits 2 r4
        if ds.length = 0 then none else
        some (natOfDigits ys, natOfDigits ms, natOfDigits ds, r5)
      | _ => none
    | _ => none
  else none

/-- Parse the `%H:%M:%S` tail, returning seconds since midnight. -/
def parseHMS (cs : List Char) : Option (Nat × Nat × Nat × List Char) :=
  let (hs, r1) := takeDigits 2 cs
  if hs.length = 0 then none else
  match r1 with
  | ':' :: r2 =>
    let (ms, r3) := takeDigits 2 r2
    if ms.length = 0 then none else
    match r3 with
    | ':' :: r4 =>
      let (ss, r5) := takeDigits 2 r4
      if ss.length = 0 then none else
      some (natOfDigits hs, natOfDigits ms, natOfDigits ss, r5)
    | _ => none
  | _ => none

/-- Field validation performed by the `datetime` constructor: `MINYEAR = 1`,
`MAXYEAR = 9999`, month/day/hour/minute/second ranges. -/
def validYMDHMS (y m d hh mm ss : Nat) : Bool :=
  1 ≤ y && y ≤ 9999 && 1 ≤ m && m ≤ 12 && 1 ≤ d && d ≤ daysInMonth y m
    && hh ≤ 23 && mm ≤ 59 && ss ≤ 59

/-- Build the `PyDateTime` for calendar fields (date as offset from the Excel
epoch, time as seconds since midnight). -/
def mkPyDateTime (y m d hh mm ss : Nat) : PyDateTime :=
  ⟨(ymd2ord y m d : ℤ) - excelEpochOrd, ((hh * 3600 + mm * 60 + ss : Nat) : ℚ)⟩

/-- `OrderMatcher.parse_receipt_datetime` (`matcher.py`, lines 363-380):
`strptime` with `"%Y-%m-%d %H:%M:%S"`, falling back to `"%Y-%m-%d"`; `none`
models the `ValueError` raised on any other shape (`strptime` also rejects
trailing unconverted data). -/
def parseReceiptDatetime (s : String) : Option PyDateTime :=
  match parseYMD s.data with
  | some (y, m, d, rest) =>
    (match rest with
     | ' ' :: r1 =>
       (match parseHMS r1 with
        | some (hh, mm, ss, []) =>
          if validYMDHMS y m d hh mm ss then some (mkPyDateTime y m d hh mm ss) else none
        | _ => none)
     | [] => if validYMDHMS y m d 0 0 0 then some (mkPyDateTime y m d 0 0 0) else none
     | _ => none)
  | none => none

/-! ## Worksheet cells and the per-cell match checks -/

/-- A raw worksheet/DataFrame cell: a string, an exact numeric value, or an
empty cell (Python `None`/`NaN`; `pd.isna` holds exactly for it). -/
inductive CellVal where
  | str (s : String)
  | num (q : ℚ)
  | empty
deriving DecidableEq

/-- `pd.isna` on a raw cell. -/
def isNA : CellVal → Bool
  | .empty => true
  | _ => false

/-- Seconds between two Python datetimes,
`(x - y).total_seconds()`. -/
def dtDiffSeconds (x y : PyDateTime) : ℚ :=
  ((x.dayOff - y.dayOff : ℤ) : ℚ) * 86400 + (x.sec - y.sec)

/-- `OrderMatcher.match_date` (`matcher.py`, lines 255-297): parse the receipt
timestamp and compare calendar dates with the serial-derived datetime, exactly.
Any conversion failure (unparseable timestamp, non-numeric serial cell) is
caught and yields `False`.  The pandas-`Timestamp` duck-typing branch is not
modelled: the raw sheet view surfaces serials as numbers. -/
def matchDate (receiptDatetime : String) (orderSerial : CellVal) : Bool :=
  match parseReceiptDatetime receiptDatetime, orderSerial with
  | some rdt, .num q => decide (rdt.dayOff = ⌊q⌋)
  | _, _ => false

/-- `time_tolerance_seconds = 10` (`matcher.py`, line 24). -/
def timeToleranceSeconds : ℚ := 10

/-- `OrderMatcher.match_time` (`matcher.py`, lines 299-333): absolute
difference in seconds between the parsed receipt timestamp and the
serial-derived datetime, accepted iff `≤ time_tolerance_seconds`; conversion
failures are caught and yield `False`. -/
def matchTime (receiptDatetime : String) (orderSerial : CellVal) : Bool :=
  match parseReceiptDatetime receiptDatetime, orderSerial with
  | some rdt, .num q =>
    decide (|dtDiffSeconds rdt (excelSerialToDatetime q)| ≤ timeToleranceSeconds)
  | _, _ => false

/-! ## `difflib.SequenceMatcher` (Ratcliff/Obershelp) on short strings

`match_product_name` calls `difflib.SequenceMatcher(None, a, b).ratio()`.
With no junk predicate and `len(b) < 200` (autojunk inert) the matcher scans
`a` once per row of the classic quadratic longest-matching-block recurrence;
the two junk-extension loops after the scan can never fire.  The embedding
reproduces that scan verbatim, including its tie-breaking (first block found
with a strictly larger size wins). -/

/-- One inner step of `find_longest_match`: examine position `j` of `b`
(only positions holding the current character `a[i]` contribute).
State: the previous row `j2len`, the row being built `newj2len`, and the best
block `(besti, bestj, bestsize)` so far. -/
def flmStepJ (ai : Char) (i : Nat) (b : List Char) (j2len : Nat → Nat)
    (acc : (Nat → Nat) × (Nat × Nat × Nat)) (j : Nat) : (Nat → Nat) × (Nat × Nat × Nat) :=
  let (newj2len, best) := acc
  if b.getD j (Char.ofNat 0) = ai then
    let k := (if j = 0 then 0 else j2len (j - 1)) + 1
    let newj2len' := fun m => if m = j then k else newj2len m
    let best' := if best.2.2 < k then (i + 1 - k, j + 1 - k, k) else best
    (newj2len', best')
  else acc

/-- The row loop of `find_longest_match` over `i ∈ [alo, ahi)`. -/
def flmRows (a b : List Char) (blo bhi : Nat) :
    List Nat → (Nat → Nat) → Nat × Nat × Nat → Nat × Nat × Nat
  | [], _, best => best
  | i :: is, j2len, best =>
    let (newj2len, best') :=
      ((List.range bhi).drop blo).foldl
        (flmStepJ (a.getD i (Char.ofNat 0)) i b j2len) (fun _ => 0, best)
    flmRows a b blo bhi is newj2len best'

/-- `SequenceMatcher.find_longest_match(alo, ahi, blo, bhi)` with no junk:
the longest block `a[i:i+k] = b[j:j+k]` inside the window, ties resolved
exactly as the scan resolves them. -/
def findLongestMatch (a b : List Char) (alo ahi blo bhi : Nat) : Nat × Nat × Nat :=
  flmRows a b blo bhi ((List.range ahi).drop alo) (fun _ => 0) (alo, blo, 0)

/-- Total size of all matching blocks (`get_matching_blocks` recursion):
recursively split around the longest match.  `fuel` bounds the recursion depth
(each recursive call strictly shrinks the window, so
`fuel = ahi + bhi + 1` at the top level is always sufficient). -/
def matchingTotal (a b : List Char) : Nat → Nat → Nat → Nat → Nat → Nat
  | 0, _, _, _, _ => 0
  | fuel + 1, alo, ahi, blo, bhi =>
    let (i, j, k) := findLongestMatch a b alo ahi blo bhi
    if k = 0 then 0
    else k + matchingTotal a b fuel alo i blo j + matchingTotal a b fuel (i + k) ahi (j + k) bhi

/-- `SequenceMatcher.ratio()`: `2*M / (len(a) + len(b))`, and `1.0` when both
sequences are empty. -/
def sequenceRatio (a b : List Char) : ℚ :=
  let t := a.length + b.length
  if t = 0 then 1
  else (2 * matchingTotal a b (t + 1) 0 a.length 0 b.length : ℚ) / t

/-- The normalisation in `match_product_name`: lower-case, then drop
spaces (`.lower().replace(' ', '')`). -/
def cleanName (s : String) : List Char :=
  (s.data.map Char.toLower).filter (fun c => c ≠ ' ')

/-- The tuned similarity threshold `0.75` (`matcher.py`, line 357). -/
def similarityThreshold : ℚ := 3 / 4

/-- `OrderMatcher.match_product_name` (`matcher.py`, lines 335-359): returns
`(is_match, similarity)`, with `(False, 0.0)` when either raw input is empty,
otherwise the `SequenceMatcher` ratio of the cleaned names and the `≥ 0.75`
threshold decision. -/
def matchProductName (receiptName orderName : String) : Bool × ℚ :=
  if receiptName = "" ∨ orderName = "" then (false, 0)
  else
    let rc := cleanName receiptName
    let oc := cleanName orderName
    let similarity := sequenceRatio rc oc
    (decide (similarityThreshold ≤ similarity), similarity)

/-! ## Receipt / customer data and validation -/

/-- One receipt line item (`receipt_data['items'][i]`): `quantity`/`options`
are `none` when the key is absent (or `None`). -/
structure ReceiptItem where
  name : String
  quantity : Option Nat
  options : Option String
deriving DecidableEq

/-- The receipt payload consumed by the matcher: `approved_at` is
`receipt_data.get('approved_at')` (absent key modelled as `none`), `items` is
`receipt_data.get('items')` with a missing/`None`/empty list collapsed to `[]`
(these are indistinguishable to every consumer, which only tests
truthiness). -/
structure ReceiptData where
  approvedAt : Option String
  items : List ReceiptItem
deriving DecidableEq

/-- `customer_info` mapping (missing keys modelled as `""`). -/
structure CustomerInfo where
  name : String
  phone : String
  address : String
deriving DecidableEq

/-- Python `str.isspace` characters relevant to `str.strip()`. -/
def isPySpace (c : Char) : Bool :=
  c = ' ' || c = '\t' || c = '\n' || c = '\r' || c = '\x0b' || c = '\x0c'

/-- Python `str.strip()`. -/
def pyStrip (s : String) : String :=
  ⟨((s.data.dropWhile isPySpace).reverse.dropWhile isPySpace).reverse⟩

/-- `OrderMatcher.validate_receipt_data` (`matcher.py`, lines 565-597):
`approved_at` present, non-empty and parseable; `items` a non-empty list whose
first element has a truthy `name`. -/
def validateReceiptData (r : ReceiptData) : Bool :=
  match r.approvedAt with
  | none => false
  | some a =>
    if a = "" then false
    else
      match parseReceiptDatetime a with
      | none => false
      | some _ =>
        match r.items with
        | [] => false
        | first :: _ => if first.name = "" then false else true

/-- Characters admitted by the phone regex `^[\d\-]+$`. -/
def isPhoneChar (c : Char) : Bool := c.isDigit || c = '-'

/-- `OrderMatcher.validate_customer_info` (`matcher.py`, lines 600-628):
all three fields truthy with truthy `strip()`, phone (stripped) made of digits
and hyphens only, and 10-11 digits in total. -/
def validateCustomerInfo (c : CustomerInfo) : Bool :=
  if c.name = "" || pyStrip c.name = "" then false
  else if c.phone = "" || pyStrip c.phone = "" then false
  else if c.address = "" || pyStrip c.address = "" then false
  else
    let phone := pyStrip c.phone
    if !phone.data.all isPhoneChar then false
    else
      let digitCount := (phone.data.filter Char.isDigit).length
      if digitCount < 10 || 11 < digitCount then false else true

/-! ## Substring search (Python `in` on strings) -/

/-- `pattern` is a prefix of `text` (character lists). -/
def prefixAt : List Char → List Char → Bool
  | [], _ => true
  | _ :: _, [] => false
  | p :: ps, c :: cs => p = c && prefixAt ps cs

/-- Python `pattern in text` substring test. -/
def hasSub (text pattern : List Char) : Bool :=
  match text with
  | [] => pattern.isEmpty
  | _ :: cs => prefixAt pattern text || hasSub cs pattern

/-- Python `pat in hay` on strings. -/
def strContainsSub (hay pat : String) : Bool := hasSub hay.data pat.data

/-! ## `OrderMatcher.format_items_for_description` -/

/-- `item.get('quantity', 1)`. -/
def itemQty (it : ReceiptItem) : Nat := it.quantity.getD 1

/-- Per-item rendering: the bare name for quantity 1, otherwise
`"{name} {quantity}개"`. -/
def renderItem (it : ReceiptItem) : String :=
  if itemQty it = 1 then it.name
  else it.name ++ " " ++ toString (itemQty it) ++ "개"

/-- The delivery-marker filter: keep items whose option text (with `None`
coalesced to `""`) contains `채널추가무료배송` or `택배요청`. -/
def deliveryItems (items : List ReceiptItem) : List ReceiptItem :=
  items.filter (fun it =>
    let options := it.options.getD ""
    strContainsSub options "채널추가무료배송" || strContainsSub options "택배요청")

/-- `OrderMatcher.format_items_for_description` (`matcher.py`, lines 466-520):
empty string when no delivery item qualifies, otherwise the
`"총{total}개) ..."` text, with the single-item and multi-item branches written
exactly as in the source. -/
def formatItemsForDescription (items : List ReceiptItem) : String :=
  if items.isEmpty then ""
  else
    let ds := deliveryItems items
    if ds.isEmpty then ""
    else
      let totalQuantity := (ds.map itemQty).sum
      let itemTexts := ds.map renderItem
      if itemTexts.length = 1 then
        "총" ++ toString totalQuantity ++ "개) " ++ itemTexts.headD ""
      else
        "총" ++ toString totalQuantity ++ "개) " ++ String.intercalate "/" itemTexts

/-! ## Worksheet model and the raw DataFrame view -/

/-- An openpyxl worksheet: 1-based `cell` grid with `max_column`/`max_row`. -/
structure Worksheet where
  maxCol : Nat
  maxRow : Nat
  cell : Nat → Nat → CellVal

/-- `worksheet.cell(r, c, value)`. -/
def setCell (ws : Worksheet) (r c : Nat) (v : CellVal) : Worksheet :=
  { ws with cell := fun r' c' => if r' = r ∧ c' = c then v else ws.cell r' c' }

/-- Header string of column `c` in `_sheet_to_dataframe_raw`
(`excel_handler_with_pyxl.py`, lines 375-393): `str(raw)` with `None → ""`. -/
def headerStr (ws : Worksheet) (c : Nat) : String :=
  match ws.cell 1 c with
  | .empty => ""
  | .str s => s
  | .num q => toString q

/-- The DataFrame column names (empty when the sheet has no rows at all). -/
def sheetHeaders (ws : Worksheet) : List String :=
  if ws.maxRow = 0 then []
  else (List.range ws.maxCol).map (fun i => headerStr ws (i + 1))

/-- The DataFrame body: 0-based row index paired with the raw cells of
physical row `index + 2`. -/
def sheetDataRows (ws : Worksheet) : List (Nat × List CellVal) :=
  (List.range (ws.maxRow - 1)).map
    (fun i => (i, (List.range ws.maxCol).map (fun j => ws.cell (i + 2) (j + 1))))

/-- `ExcelHandlerPyXL._find_option_colname`: first column whose header
contains `옵션` (as a 0-based position into the header list). -/
def findOptionCol (headers : List String) : Option Nat :=
  headers.findIdx? (fun h => strContainsSub h "옵션")

/-- The option-column mask of `match_order` (`matcher.py`, line 61):
`fillna("").astype(str).str.contains("택배요청|채널추가무료배송")`. -/
def maskKeep (cv : CellVal) : Bool :=
  let s := match cv with
    | .empty => ""
    | .str s => s
    | .num q => toString q
  strContainsSub s "택배요청" || strContainsSub s "채널추가무료배송"

/-- The delivery-filtered DataFrame rows (original indices preserved, as
`order_df[mask]` keeps pandas labels). -/
def filteredRows (ws : Worksheet) : List (Nat × List CellVal) :=
  match findOptionCol (sheetHeaders ws) with
  | none => []
  | some k => (sheetDataRows ws).filter (fun rc => maskKeep (rc.2.getD k .empty))

/-- `row[name]` on a DataFrame row: value of the first column labelled
`name`, `KeyError` when the label is absent. -/
def rowGet (headers : List String) (cells : List CellVal) (name : String) :
    Except String CellVal :=
  match headers.findIdx? (fun h => h == name) with
  | some i => .ok (cells.getD i .empty)
  | none => .error "KeyError"

/-! ## The cascade (`OrderMatcher.find_matching_orders`) -/

/-- The per-row snapshot stored in a match (`matcher.py`, lines 208-213). -/
structure OrderSnapshot where
  dateSerial : CellVal
  timeSerial : CellVal
  productName : CellVal
  optionVal : CellVal
deriving DecidableEq

/-- An accepted candidate (`matching_orders` entry). -/
structure Candidate where
  index : Nat
  score : ℚ
  productSimilarity : ℚ
  orderData : OrderSnapshot
deriving DecidableEq

/-- The `skip_reason` recorded per attempt (the source stores Korean strings;
the product-mismatch reason embeds the similarity it interpolates). -/
inductive SkipReason where
  | nanValue
  | dateMismatch
  | timeMismatch
  | productMismatch (sim : ℚ)
deriving DecidableEq

/-- One `attempt_info` record of the diagnostics trace. -/
structure Attempt where
  index : Nat
  orderProduct : CellVal
  dateMatch : Bool
  timeMatch : Bool
  productMatch : Bool
  skipReason : Option SkipReason
  productSimilarity : Option ℚ
  matched : Bool
  score : Option ℚ
deriving DecidableEq

/-- The `debug_info` accumulator (`matcher.py`, lines 124-132). -/
structure DebugInfo where
  totalRows : Nat
  checkedRows : Nat
  datePass : Nat
  timePass : Nat
  productPass : Nat
  failedReasons : List String
  allAttempts : List Attempt
  receiptInfo : Option (String × String)
deriving DecidableEq

/-- Fresh diagnostics for a table of `n` rows. -/
def emptyDebug (n : Nat) : DebugInfo := ⟨n, 0, 0, 0, 0, [], [], none⟩

/-- One iteration of the cascade loop (`matcher.py`, lines 149-221): NaN
guard, then date, time and product stages, recording the attempt trace.
`Except.error` models the uncaught `AttributeError` raised when a truthy
non-string product cell reaches `match_product_name`. -/
def cascadeStep (receiptDatetime receiptProductName : String) (headers : List String)
    (acc : List Candidate × DebugInfo) (row : Nat × List CellVal) :
    Except String (List Candidate × DebugInfo) := do
  let (ms, d) := acc
  let d := { d with checkedRows := d.checkedRows + 1 }
  let dateCell ← rowGet headers row.2 "주문기준일자"
  let timeCell ← rowGet headers row.2 "주문시작시각"
  let prodCell ← rowGet headers row.2 "상품명"
  let att : Attempt := ⟨row.1, prodCell, false, false, false, none, none, false, none⟩
  if isNA dateCell || isNA timeCell || isNA prodCell then
    return (ms, { d with allAttempts := d.allAttempts ++ [{ att with skipReason := some .nanValue }] })
  let dm := matchDate receiptDatetime dateCell
  let att := { att with dateMatch := dm }
  if !dm then
    return (ms, { d with allAttempts := d.allAttempts ++ [{ att with skipReason := some .dateMismatch }] })
  let d := { d with datePass := d.datePass + 1 }
  let tm := matchTime receiptDatetime timeCell
  let att := { att with timeMatch := tm }
  if !tm then
    return (ms, { d with allAttempts := d.allAttempts ++ [{ att with skipReason := some .timeMismatch }] })
  let d := { d with timePass := d.timePass + 1 }
  match prodCell with
  | .str orderName =>
    let (pm, sim) := matchProductName receiptProductName orderName
    let att := { att with productMatch := pm, productSimilarity := some sim }
    if pm then
      let d := { d with productPass := d.productPass + 1 }
      let score : ℚ := 3/10 + 3/10 + (2/5) * sim
      let optVal := match rowGet headers row.2 "옵션" with
        | .ok v => v
        | .error _ => .str ""
      let cand : Candidate := ⟨row.1, score, sim, ⟨dateCell, timeCell, prodCell, optVal⟩⟩
      return (ms ++ [cand],
        { d with allAttempts := d.allAttempts ++ [{ att with matched := true, score := some score }] })
    else
      return (ms, { d with allAttempts := d.allAttempts ++ [{ att with skipReason := some (.productMismatch sim) }] })
  | .num q =>
    if q = 0 then
      return (ms, { d with allAttempts := d.allAttempts ++
        [{ att with productSimilarity := some 0, skipReason := some (.productMismatch 0) }] })
    else Except.error "AttributeError"
  | .empty => Except.error "AttributeError"

/-- Stable descending insertion by `score` (ties keep earlier rows first),
the behaviour of `matching_orders.sort(key=score, reverse=True)`. -/
def insertDesc (c : Candidate) : List Candidate → List Candidate
  | [] => [c]
  | x :: xs => if x.score < c.score then c :: x :: xs else x :: insertDesc c xs

/-- Stable sort of candidates by descending score. -/
def sortByScoreDesc (l : List Candidate) : List Candidate :=
  l.foldl (fun acc c => insertDesc c acc) []

/-- `OrderMatcher.find_matching_orders` (`matcher.py`, lines 117-251). -/
def findMatchingOrders (receipt : ReceiptData) (headers : List String)
    (rows : List (Nat × List CellVal)) : Except String (List Candidate × DebugInfo) := do
  let d0 := emptyDebug rows.length
  let receiptDatetime := receipt.approvedAt.getD ""
  if receiptDatetime = "" || receipt.items.isEmpty then
    return ([], { d0 with failedReasons := ["영수증 정보 부족: 시간 또는 상품 정보 없음"] })
  let receiptProductName := (receipt.items.headD ⟨"", none, none⟩).name
  let d1 := { d0 with receiptInfo := some (receiptDatetime, receiptProductName) }
  let (ms, d) ← rows.foldlM (cascadeStep receiptDatetime receiptProductName headers) ([], d1)
  return (sortByScoreDesc ms, d)

/-! ## The writer (`OrderMatcher.update_customer_info`) -/

/-- First (1-based) column whose DataFrame label equals `name`; `none` when
the sheet is empty or no column matches (pandas `KeyError`). -/
def colIdx1 (ws : Worksheet) (name : String) : Option Nat :=
  if ws.maxRow = 0 then none
  else ((List.range ws.maxCol).find? (fun i => headerStr ws (i + 1) == name)).map (· + 1)

/-- Insert `idx` into the group keyed by raw cell value `v`, creating the
group at the end on first sight (Python dict insertion order). -/
def insertGroup (groups : List (CellVal × List Nat)) (v : CellVal) (idx : Nat) :
    List (CellVal × List Nat) :=
  match groups with
  | [] => [(v, [idx])]
  | (k, l) :: rest => if k = v then (k, l ++ [idx]) :: rest else (k, l) :: insertGroup rest v idx

/-- Ascending insertion for `list.sort()` on indices. -/
def insertAsc (n : Nat) : List Nat → List Nat
  | [] => [n]
  | x :: xs => if n < x then n :: x :: xs else x :: insertAsc n xs

/-- `list.sort()` ascending. -/
def sortNat (l : List Nat) : List Nat := l.foldl (fun acc n => insertAsc n acc) []

/-- The index loop of `group_by_order_time`: read each row's raw
`주문시작시각` value (column `tc`), skip NaN, and extend the dict;
`df.loc[idx, ...]` raises on a label outside the frame. -/
def groupFold (ws : Worksheet) (tc : Nat) :
    List Nat → List (CellVal × List Nat) → Except String (List (CellVal × List Nat))
  | [], groups => .ok groups
  | idx :: rest, groups =>
    if idx + 2 ≤ ws.maxRow then
      if isNA (ws.cell (idx + 2) tc) then groupFold ws tc rest groups
      else groupFold ws tc rest (insertGroup groups (ws.cell (idx + 2) tc) idx)
    else .error "KeyError"

/-- `OrderMatcher.group_by_order_time` (`matcher.py`, lines 522-561): group
row indices by the raw `주문시작시각` cell value (NaN rows skipped), each
group sorted ascending; `KeyError` when the column or a row label is missing
(the `df.loc[idx, ...]` lookups). -/
def groupByOrderTime (ws : Worksheet) (indices : List Nat) :
    Except String (List (CellVal × List Nat)) :=
  match colIdx1 ws "주문시작시각" with
  | none => .error "KeyError"
  | some tc =>
    match groupFold ws tc indices [] with
    | .error e => .error e
    | .ok groups => .ok (groups.map (fun g => (g.1, sortNat g.2)))

/-- The five recipient columns looked up in the header row
(`matcher.py`, line 420). -/
def theFiveHeaders : List String :=
  ["수하인명", "수하인전화번호", "수하인핸드폰번호", "수하인주소", "품목명"]

/-- `col_mapping[name]`: last 1-based column whose raw header cell is exactly
the string `name` (later columns overwrite earlier dict entries). -/
def colMapping (ws : Worksheet) (name : String) : Option Nat :=
  (List.range ws.maxCol).foldl
    (fun acc i => if ws.cell 1 (i + 1) = .str name then some (i + 1) else acc) none

/-- One guarded cell write: `if name in col_mapping and value: cell(...)`. -/
def condWrite (ws : Worksheet) (r : Nat) (co : Option Nat) (v : String) : Worksheet :=
  match co with
  | some c => if v = "" then ws else setCell ws r c (.str v)
  | none => ws

/-- The body of the per-group write loop (`matcher.py`, lines 444-460) at
physical row `r`. -/
def writeGroupRow (cmap : String → Option Nat) (cust : CustomerInfo) (itemsText : String)
    (r : Nat) (ws : Worksheet) : Worksheet :=
  let ws1 := condWrite ws r (cmap "수하인명") cust.name
  let ws2 := condWrite ws1 r (cmap "수하인전화번호") cust.phone
  let ws3 := condWrite ws2 r (cmap "수하인핸드폰번호") cust.phone
  let ws4 := condWrite ws3 r (cmap "수하인주소") cust.address
  condWrite ws4 r (cmap "품목명") itemsText

/-- The `items_text` computed by the writer (`matcher.py`, lines 427-433). -/
def writerItemsText (receipt : Option ReceiptData) : String :=
  match receipt with
  | some r => if r.items.isEmpty then "" else formatItemsForDescription r.items
  | none => ""

/-- `OrderMatcher.update_customer_info` (`matcher.py`, lines 397-464): group
the matched indices by order time, then write the customer fields (and the
formatted item text) into physical row `first_index + 2` of each group,
returning the mutated worksheet and the group count. -/
def updateCustomerInfo (ws : Worksheet) (matchedIndices : List Nat)
    (cust : CustomerInfo) (receipt : Option ReceiptData) :
    Except String (Worksheet × Nat) :=
  match groupByOrderTime ws matchedIndices with
  | .error e => .error e
  | .ok groups =>
    .ok (groups.foldl (fun (acc : Worksheet × Nat) g =>
      if g.2.isEmpty then acc
      else (writeGroupRow (colMapping ws) cust (writerItemsText receipt)
              (g.2.headD 0 + 2) acc.1, acc.2 + 1)) (ws, 0))

/-- The worksheet state after a writer call (an exception escapes before any
cell is touched, leaving the sheet unchanged). -/
def applyUpdate (ws : Worksheet) (matchedIndices : List Nat)
    (cust : CustomerInfo) (receipt : Option ReceiptData) : Worksheet :=
  match updateCustomerInfo ws matchedIndices cust receipt with
  | .error _ => ws
  | .ok (ws', _) => ws'

/-! ### Write-sequence view of the writer (proof infrastructure)

The writer's effect on the grid is the sequential application of a list of
`(row, column, value)` cell writes; the following definitions name that list
so the frame/idempotence facts can be stated and proved. -/

/-- The write emitted by one guarded `cell(...)` call (empty when the column
is missing or the value is falsy). -/
def optWrite (r : Nat) (co : Option Nat) (v : String) : List (Nat × Nat × String) :=
  match co with
  | some c => if v = "" then [] else [(r, c, v)]
  | none => []

/-- The writes of one group's row. -/
def groupWrites (cmap : String → Option Nat) (cust : CustomerInfo) (itemsText : String)
    (r : Nat) : List (Nat × Nat × String) :=
  optWrite r (cmap "수하인명") cust.name
    ++ optWrite r (cmap "수하인전화번호") cust.phone
    ++ optWrite r (cmap "수하인핸드폰번호") cust.phone
    ++ optWrite r (cmap "수하인주소") cust.address
    ++ optWrite r (cmap "품목명") itemsText

/-- All writes of one writer call, in execution order. -/
def allWrites (cmap : String → Option Nat) (cust : CustomerInfo) (itemsText : String) :
    List (CellVal × List Nat) → List (Nat × Nat × String)
  | [] => []
  | g :: gs =>
    (if g.2.isEmpty then [] else groupWrites cmap cust itemsText (g.2.headD 0 + 2))
      ++ allWrites cmap cust itemsText gs

/-- Apply a write list left to right. -/
def applyWrites (ws : Worksheet) (l : List (Nat × Nat × String)) : Worksheet :=
  l.foldl (fun w t => setCell w t.1 t.2.1 (.str t.2.2)) ws

/-- The value left in cell `(r, c)` by a write list (later writes win). -/
def lastWrittenVal : List (Nat × Nat × String) → Nat → Nat → Option String
  | [], _, _ => none
  | t :: ts, r, c =>
    match lastWrittenVal ts r c with
    | some v => some v
    | none => if r = t.1 ∧ c = t.2.1 then some t.2.2 else none

/-- The cells a writer call may touch: the row `first_index + 2` of some
(nonempty) time group, in a column mapped from one of the five recipient
headers. -/
def writeTarget (ws : Worksheet) (groups : List (CellVal × List Nat)) (r c : Nat) : Prop :=
  ∃ g ∈ groups, ¬g.2.isEmpty = true ∧ r = g.2.headD 0 + 2 ∧
    ∃ name ∈ theFiveHeaders, colMapping ws name = some c

instance (ws : Worksheet) (groups : List (CellVal × List Nat)) (r c : Nat) :
    Decidable (writeTarget ws groups r c) := by
  unfold writeTarget; infer_instance

/-! ## `OrderMatcher.match_order` -/

/-- The structured result of `match_order`: the `status` field of the source's
result dict is the constructor; payloads keep the data the claims refer to. -/
inductive MatchResult where
  | error (msg : String)
  | noOrders
  | noMatch (debug : DebugInfo) (receiptDatetime : Option String) (receiptProduct : String)
  | success (matched : Candidate) (updatedBlocks : Nat) (candidateCount : Nat) (debug : DebugInfo)
deriving DecidableEq

/-- The `receipt_info.product` field of a no-match result. -/
def receiptProductOf (r : ReceiptData) : String :=
  match r.items with
  | [] => ""
  | it :: _ => it.name

/-- `OrderMatcher.match_order` (`matcher.py`, lines 28-114): validation,
delivery filtering, the cascade, and the result dispatch; any exception
escaping the body is caught and turned into an `error` result. -/
def matchOrder (wsOpt : Option Worksheet) (receipt : ReceiptData) (cust : CustomerInfo) :
    MatchResult :=
  if !validateReceiptData receipt then .error "영수증 데이터가 유효하지 않습니다."
  else if !validateCustomerInfo cust then .error "고객 정보가 유효하지 않습니다."
  else
    match wsOpt with
    | none => .error "엑셀 워크시트가 로드되지 않았습니다."
    | some ws =>
      match findOptionCol (sheetHeaders ws) with
      | none => .error "옵션 컬럼을 찾을 수 없습니다."
      | some _ =>
        let rows := filteredRows ws
        if rows.isEmpty then .noOrders
        else
          match findMatchingOrders receipt (sheetHeaders ws) rows with
          | .error e => .error e
          | .ok ([], debug) => .noMatch debug receipt.approvedAt (receiptProductOf receipt)
          | .ok (best :: rest, debug) =>
            match updateCustomerInfo ws [best.index] cust (some receipt) with
            | .error e => .error e
            | .ok (_, cnt) => .success best cnt (rest.length + 1) debug

/-! ## Concrete witness fixtures -/

/-- Witness worksheet: a time column, two recipient columns, and two data
rows sharing one order-time value. -/
def wsPair : Worksheet :=
  ⟨3, 3, fun r c =>
    if r = 1 then
      if c = 1 then .str "주문시작시각" else if c = 2 then .str "수하인명"
      else if c = 3 then .str "수하인주소" else .empty
    else if r = 2 ∨ r = 3 then
      if c = 1 then .num 45870 else .empty
    else .empty⟩

/-- Witness customer record. -/
def custKim : CustomerInfo := ⟨"홍길동", "010-1234-5678", "서울시 강남구"⟩

/-- The time group of `wsPair` for indices `[0, 1]`. -/
def wsPairGroups : List (CellVal × List Nat) := [(CellVal.num 45870, [0, 1])]

/-- `wsPair` after one writer call on indices `[0, 1]`. -/
def wsPairUpd : Worksheet := applyUpdate wsPair [0, 1] custKim none

/-- Witness worksheet for the driver: one delivery-eligible order row whose
date does not match the witness receipt. -/
def wsNoMatch : Worksheet :=
  ⟨4, 2, fun r c =>
    if r = 1 then
      if c = 1 then .str "주문기준일자" else if c = 2 then .str "주문시작시각"
      else if c = 3 then .str "상품명" else if c = 4 then .str "옵션" else .empty
    else if r = 2 then
      if c = 1 then .num 45000 else if c = 2 then .num 45000
      else if c = 3 then .str "주이패턴이불" else if c = 4 then .str "택배요청" else .empty
    else .empty⟩

/-- Witness receipt for the driver. -/
def receiptBlanket : ReceiptData :=
  ⟨some "2025-08-01 11:14:31", [⟨"주이패턴이불", none, none⟩]⟩

/-- The diagnostics the cascade produces on `wsNoMatch` for
`receiptBlanket` (its single candidate row fails the date stage). -/
def debugNoMatch : DebugInfo :=
  ⟨1, 1, 0, 0, 0, [],
    [⟨0, .str "주이패턴이불", false, false, false, some .dateMismatch, none, false, none⟩],
    some ("2025-08-01 11:14:31", "주이패턴이불")⟩

instance {ε α : Type} [DecidableEq ε] [DecidableEq α] : DecidableEq (Except ε α) := by
  intro a b
  cases a with
  | error e =>
    cases b with
    | error f =>
      exact if h : e = f then isTrue (by rw [h]) else isFalse (fun hc => h (Except.error.inj hc))
    | ok y => exact isFalse (fun hc => Except.noConfusion hc)
  | ok x =>
    cases b with
    | error f => exact isFalse (fun hc => Except.noConfusion hc)
    | ok y =>
      exact if h : x = y then isTrue (by rw [h]) else isFalse (fun hc => h (Except.ok.inj hc))

/-! # Theorems -/

/-! ## Temporal codec facts (shared lemmas) -/

lemma d19000101_eq : d19000101 = ⟨2, 0⟩ := by decide

lemma leapBugCutoff_eq : leapBugCutoff = ⟨61, 0⟩ := by decide

/-- The raw (pre-collapse) serial of the round trip: the identity outside the
leap-bug window and `s - 1` inside it. -/
lemma rawExcelSerial_roundTrip (s : ℚ) :
    rawExcelSerial (excelSerialToDatetime s) =
      if 2 ≤ ⌊s⌋ ∧ ⌊s⌋ ≤ 60 then s - 1 else s := by
  have hsec : (0 : ℚ) ≤ (s - ⌊s⌋) * 86400 :=
    mul_nonneg (by linarith [Int.floor_le s]) (by norm_num)
  have hser : ((⌊s⌋ : ℚ)) + (s - ⌊s⌋) * 86400 / 86400 = s := by
    field_simp
  unfold rawExcelSerial excelSerialToDatetime
  rw [d19000101_eq, leapBugCutoff_eq]
  simp only [pyLE, pyLT]
  have hiff : ((2 < ⌊s⌋ ∨ 2 = ⌊s⌋ ∧ (0 : ℚ) ≤ (s - ⌊s⌋) * 86400) ∧
      (⌊s⌋ < 61 ∨ ⌊s⌋ = 61 ∧ (s - ⌊s⌋) * 86400 < 0)) ↔ (2 ≤ ⌊s⌋ ∧ ⌊s⌋ ≤ 60) := by
    constructor
    · rintro ⟨h1, h2⟩
      refine ⟨?_, ?_⟩
      · rcases h1 with h | ⟨h, _⟩ <;> omega
      · rcases h2 with h | ⟨_, hneg⟩
        · omega
        · exact absurd hsec (not_le.2 hneg)
    · rintro ⟨h1, h2⟩
      refine ⟨?_, Or.inl (by omega)⟩
      rcases eq_or_lt_of_le h1 with h | h
      · exact Or.inr ⟨h, hsec⟩
      · exact Or.inl h
  simp only [hiff]
  split
  · rw [hser]
  · exact hser

/-- `dtToExcelSerial` unfolded through the raw serial. -/
lemma dtToExcelSerial_eq (dt : PyDateTime) :
    dtToExcelSerial dt =
      if |rawExcelSerial dt - round (rawExcelSerial dt)| < 1 / 1000000000 then
        pyInt (rawExcelSerial dt)
      else rawExcelSerial dt := rfl

lemma dtToExcelSerial_of_far (dt : PyDateTime)
    (h : 1 / 1000000000 ≤ |rawExcelSerial dt - round (rawExcelSerial dt)|) :
    dtToExcelSerial dt = rawExcelSerial dt := by
  rw [dtToExcelSerial_eq, if_neg (not_lt.2 h)]

lemma pyInt_intCast (n : ℤ) : pyInt (n : ℚ) = n := by
  unfold pyInt
  split <;> simp

lemma dtToExcelSerial_of_int (dt : PyDateTime) (n : ℤ)
    (h : rawExcelSerial dt = (n : ℚ)) : dtToExcelSerial dt = (n : ℚ) := by
  rw [dtToExcelSerial_eq, h, round_intCast]
  rw [if_pos (by simp)]
  rw [pyInt_intCast]

/-- C2 (counterexample): the round trip already fails at the integer serial 2
(the code returns 1 there): `excel_serial_to_datetime` applies no leap-bug
correction, so the two directions are not consistent inside the window. -/
theorem serial_roundTrip_leap_window_refutes :
    dtToExcelSerial (excelSerialToDatetime 2) = 1 ∧
    dtToExcelSerial (excelSerialToDatetime 2) ≠ 2 := by decide

/-- C2 (amended): for serials `s ∈ [1, 61)` that are integral or at least
1e-9 away from the nearest integer, the round trip returns `s` below the
1900-01-01 boundary (`s < 2`) and `s - 1` from there on: the
datetime-to-serial correction is NOT compensated in the serial-to-datetime
direction, so round-tripping loses one day on `[2, 61)`. -/
theorem serial_roundTrip_leap_window_amended (s : ℚ) (h1 : 1 ≤ s) (h2 : s < 61)
    (h3 : s = ⌊s⌋ ∨ 1 / 1000000000 ≤ |s - round s|) :
    dtToExcelSerial (excelSerialToDatetime s) = if s < 2 then s else s - 1 := by
  have hn2 : ⌊s⌋ ≤ 60 := by
    have h61 : ⌊s⌋ < 61 := Int.floor_lt.2 (by exact_mod_cast h2)
    omega
  by_cases hs2 : s < 2
  · have hn : ⌊s⌋ < 2 := Int.floor_lt.2 (by exact_mod_cast hs2)
    have hraw : rawExcelSerial (excelSerialToDatetime s) = s := by
      rw [rawExcelSerial_roundTrip, if_neg (by omega)]
    rw [if_pos hs2]
    rcases h3 with h3 | h3
    · rw [dtToExcelSerial_of_int _ ⌊s⌋ (by rw [hraw, ← h3]), ← h3]
    · rw [dtToExcelSerial_of_far _ (by rw [hraw]; exact h3), hraw]
  · have hs2' : (2 : ℚ) ≤ s := not_lt.1 hs2
    have hn : 2 ≤ ⌊s⌋ := Int.le_floor.2 (by exact_mod_cast hs2')
    have hraw : rawExcelSerial (excelSerialToDatetime s) = s - 1 := by
      rw [rawExcelSerial_roundTrip, if_pos ⟨hn, hn2⟩]
    rw [if_neg hs2]
    rcases h3 with h3 | h3
    · have hcast : s - 1 = ((⌊s⌋ - 1 : ℤ) : ℚ) := by
        push_cast
        rw [← h3]
      rw [dtToExcelSerial_of_int _ (⌊s⌋ - 1) (by rw [hraw, hcast]), ← hcast]
    · have hround : round (s - 1) = round s - 1 := by
        simp
      have hfar : 1 / 1000000000 ≤ |s - 1 - round (s - 1)| := by
        rw [hround]
        have : s - 1 - ((round s - 1 : ℤ) : ℚ) = s - round s := by push_cast; ring
        rw [this]
        exact h3
      rw [dtToExcelSerial_of_far _ (by rw [hraw]; exact hfar), hraw]

/-- C2 (witness): at serial 3 (inside the window) the round trip returns 2. -/
theorem serial_roundTrip_leap_window_amended_witness :
    (1 ≤ (3 : ℚ) ∧ (3 : ℚ) < 61 ∧ (3 : ℚ) = ⌊(3 : ℚ)⌋) ∧
    dtToExcelSerial (excelSerialToDatetime 3) = 3 - 1 := by
  refine ⟨⟨by norm_num, by norm_num, by decide⟩, ?_⟩
  have h := serial_roundTrip_leap_window_amended 3 (by norm_num) (by norm_num)
    (Or.inl (by decide))
  rw [h, if_neg (by norm_num)]

/-- C3 (counterexample): a serial just past the cutoff whose fractional part
is below the collapse tolerance is *not* round-tripped: the integer collapse
in `_dt_to_excel_serial` truncates it to 61. -/
theorem serial_roundTrip_after_cutoff_refutes :
    dtToExcelSerial (excelSerialToDatetime (61 + 1 / 10000000000)) = 61 ∧
    (61 : ℚ) ≠ 61 + 1 / 10000000000 := by decide

/-- C3 (amended): for serials whose date part is on or after 1900-03-01
(`⌊s⌋ ≥ 61`) and which are integral or at least 1e-9 away from the nearest
integer (outside the collapse tolerance), the round trip
`datetime_to_serial ∘ serial_to_datetime` is the identity. -/
theorem serial_roundTrip_after_cutoff_amended (s : ℚ) (h1 : 61 ≤ ⌊s⌋)
    (h3 : s = ⌊s⌋ ∨ 1 / 1000000000 ≤ |s - round s|) :
    dtToExcelSerial (excelSerialToDatetime s) = s := by
  have hraw : rawExcelSerial (excelSerialToDatetime s) = s := by
    rw [rawExcelSerial_roundTrip, if_neg (by omega)]
  rcases h3 with h3 | h3
  · rw [dtToExcelSerial_of_int _ ⌊s⌋ (by rw [hraw, ← h3]), ← h3]
  · rw [dtToExcelSerial_of_far _ (by rw [hraw]; exact h3), hraw]

/-- C3 (witness): the round trip is the identity at serial 45870.5
(2025-08-01 12:00). -/
theorem serial_roundTrip_after_cutoff_amended_witness :
    (61 ≤ ⌊(45870 + 1 / 2 : ℚ)⌋ ∧
      1 / 1000000000 ≤ |(45870 + 1 / 2 : ℚ) - round (45870 + 1 / 2 : ℚ)|) ∧
    dtToExcelSerial (excelSerialToDatetime (45870 + 1 / 2)) = 45870 + 1 / 2 := by
  refine ⟨⟨by decide, by decide⟩, ?_⟩
  exact serial_roundTrip_after_cutoff_amended (45870 + 1 / 2)
    (by decide) (Or.inr (by decide))

/-- C8 (counterexample): one microsecond-scale step before 1900-03-03 the
computed serial has fractional part `1 - 1e-10` — not within 1e-9 of zero —
yet the function still returns an integer (the collapse tests the distance to
the *nearest* integer, and `int()` then truncates downward). -/
theorem dtToExcelSerial_int_collapse_refutes :
    (∃ n : ℤ, dtToExcelSerial ⟨62, 86400 - 86400 / 10000000000⟩ = (n : ℚ)) ∧
    ¬ Int.fract (rawExcelSerial ⟨62, 86400 - 86400 / 10000000000⟩) < 1 / 1000000000 :=
  ⟨⟨62, by decide⟩, by decide⟩

/-- C8 (amended): `_dt_to_excel_serial` returns an integer exactly when the
computed serial is within 1e-9 of its *nearest* integer (fractional part
within 1e-9 of zero or of one), and otherwise returns the serial unmodified. -/
theorem dtToExcelSerial_int_collapse_amended (dt : PyDateTime) :
    ((∃ n : ℤ, dtToExcelSerial dt = (n : ℚ)) ↔
      |rawExcelSerial dt - round (rawExcelSerial dt)| < 1 / 1000000000) ∧
    (¬ |rawExcelSerial dt - round (rawExcelSerial dt)| < 1 / 1000000000 →
      dtToExcelSerial dt = rawExcelSerial dt) := by
  constructor
  · constructor
    · rintro ⟨n, hn⟩
      by_contra h
      rw [dtToExcelSerial_of_far dt (not_lt.1 h)] at hn
      rw [hn, round_intCast] at h
      simp at h
    · intro h
      rw [dtToExcelSerial_eq, if_pos h]
      unfold pyInt
      split
      · exact ⟨⌊rawExcelSerial dt⌋, rfl⟩
      · exact ⟨⌈rawExcelSerial dt⌉, rfl⟩
  · intro h
    exact dtToExcelSerial_of_far dt (not_lt.1 h)

/-- C8 (witness): at noon of the epoch day the serial is 0.5, far from any
integer: no collapse happens and the raw serial is returned. -/
theorem dtToExcelSerial_int_collapse_amended_witness :
    ¬ |rawExcelSerial ⟨0, 43200⟩ - round (rawExcelSerial ⟨0, 43200⟩)| < 1 / 1000000000 ∧
    dtToExcelSerial ⟨0, 43200⟩ = rawExcelSerial ⟨0, 43200⟩ :=
  ⟨by decide, (dtToExcelSerial_int_collapse_amended ⟨0, 43200⟩).2 (by decide)⟩

/-! ## Fuzzy product-name matcher facts -/

/-- C1 (counterexample): on the spec's own example pair — the receipt name
with one bracketed qualifier versus the bare order name — the
Ratcliff/Obershelp ratio is `12/19 ≈ 0.632`, *below* the `0.75` threshold, so
`match_product_name` returns `is_match = False`, contradicting the claimed
`similarity ≥ 0.75` and `is_match = True`. -/
theorem matchProductName_bracket_pair_refutes :
    matchProductName "주이패턴이불(냉감나일론)" "주이패턴이불" = (false, 12 / 19) ∧
    (12 / 19 : ℚ) < similarityThreshold := by
  constructor
  · decide
  · decide

/-- C1 (amended): the bracketed-qualifier pair yields similarity `12/19`
(≈ 0.632 < 0.75) and `is_match = False`; the second pair yields similarity
`1/2` and `is_match = False` as the claim states; and in general `is_match`
holds exactly when the similarity is at least the `0.75` threshold. -/
theorem matchProductName_spec_pairs_amended :
    matchProductName "주이패턴이불(냉감나일론)" "주이패턴이불" = (false, 12 / 19) ∧
    matchProductName "주이패턴이불" "뜨왈주이패턴베개커버" = (false, 1 / 2) ∧
    ∀ a b : String,
      (matchProductName a b).1 = decide (similarityThreshold ≤ (matchProductName a b).2) := by
  refine ⟨by decide, by decide, ?_⟩
  intro a b
  unfold matchProductName
  split
  · decide
  · rfl

/-- All-space character lists normalise away completely. -/
lemma cleanChars_of_spaces (l : List Char) (h : ∀ c ∈ l, c = ' ') :
    (l.map Char.toLower).filter (fun c => c ≠ ' ') = [] := by
  induction l with
  | nil => rfl
  | cons c cs ih =>
    have hc : c = ' ' := h c (List.mem_cons_self c cs)
    have hcs : ∀ x ∈ cs, x = ' ' := fun x hx => h x (List.mem_cons_of_mem c hx)
    subst hc
    simp only [List.map_cons, List.filter_cons,
      show Char.toLower ' ' = ' ' from rfl]
    norm_num
    intro x hx
    rw [hcs x hx]
    decide

/-- All-space strings are cleaned to the empty character list. -/
lemma cleanName_of_spaces (s : String) (h : ∀ c ∈ s.data, c = ' ') :
    cleanName s = [] :=
  cleanChars_of_spaces s.data h

/-- C10: blank-but-non-empty product names are a perfect match: the
empty-input guard only sees the raw strings, both names normalise to the
empty string, and the `SequenceMatcher` ratio of two empty sequences is 1. -/
theorem matchProductName_blank_inputs (a b : String) (ha : a ≠ "") (hb : b ≠ "")
    (hsa : ∀ c ∈ a.data, c = ' ') (hsb : ∀ c ∈ b.data, c = ' ') :
    matchProductName a b = (true, 1) := by
  unfold matchProductName
  rw [if_neg (by push_neg; exact ⟨ha, hb⟩)]
  rw [cleanName_of_spaces a hsa, cleanName_of_spaces b hsb]
  decide

/-- C10 (witness): two one-space strings match perfectly. -/
theorem matchProductName_blank_inputs_witness :
    (" " : String) ≠ "" ∧ matchProductName " " " " = (true, 1) :=
  ⟨by decide, matchProductName_blank_inputs " " " " (by decide) (by decide)
    (by decide) (by decide)⟩

/-! ## `match_time` tolerance (C4) -/

/-- C4: for every parseable receipt timestamp and every numeric time serial,
`match_time` accepts exactly when the absolute difference in seconds between
the parsed receipt datetime and the serial-derived datetime is at most the
10-second tolerance (boundary inclusive). -/
theorem matchTime_tolerance_iff (ts : String) (rdt : PyDateTime) (q : ℚ)
    (h : parseReceiptDatetime ts = some rdt) :
    matchTime ts (.num q) = true ↔
      |dtDiffSeconds rdt (excelSerialToDatetime q)| ≤ timeToleranceSeconds := by
  unfold matchTime
  rw [h]
  simp

/-- C4 (witness): receipt `2025-08-01 11:14:31` against serials 10 and 11
seconds later — the 10-second difference passes, the 11-second one fails. -/
theorem matchTime_tolerance_iff_witness :
    parseReceiptDatetime "2025-08-01 11:14:31" = some ⟨45870, 40471⟩ ∧
    matchTime "2025-08-01 11:14:31" (.num (45870 + 40481 / 86400)) = true ∧
    matchTime "2025-08-01 11:14:31" (.num (45870 + 40482 / 86400)) = false :=
  ⟨by decide,
   (matchTime_tolerance_iff "2025-08-01 11:14:31" ⟨45870, 40471⟩
      (45870 + 40481 / 86400) (by decide)).mpr (by decide),
   by decide⟩

/-! ## `format_items_for_description` (C6) -/

/-- C6: the item-description text is empty exactly when no line item carries a
delivery marker; otherwise it is the `"총{total}개) "` prefix followed by the
rendered qualifying items joined with `/` — for a single item and for many
alike (the two source branches produce the same string). -/
theorem formatItems_description_spec (items : List ReceiptItem) :
    (formatItemsForDescription items = "" ↔ deliveryItems items = []) ∧
    (deliveryItems items ≠ [] →
      formatItemsForDescription items =
        "총" ++ toString ((deliveryItems items).map itemQty).sum ++ "개) " ++
          String.intercalate "/" ((deliveryItems items).map renderItem)) := by
  by_cases hitems : items = []
  · subst hitems
    exact ⟨by constructor <;> intro _ <;> rfl, fun h => absurd rfl h⟩
  · by_cases hds : deliveryItems items = []
    · have hfmt : formatItemsForDescription items = "" := by
        unfold formatItemsForDescription
        rw [if_neg (by simp [hitems]), hds]
        rfl
      exact ⟨by simp [hfmt, hds], fun h => absurd hds h⟩
    · have hne : ("총" ++ toString ((deliveryItems items).map itemQty).sum ++ "개) " ++
          String.intercalate "/" ((deliveryItems items).map renderItem)) ≠ "" := by
        intro h
        have hlen := congrArg String.length h
        rw [String.length_append, String.length_append, String.length_append] at hlen
        simp at hlen
        exact absurd hlen.1.1.1 (by decide)
      have hfmt : formatItemsForDescription items =
          "총" ++ toString ((deliveryItems items).map itemQty).sum ++ "개) " ++
            String.intercalate "/" ((deliveryItems items).map renderItem) := by
        unfold formatItemsForDescription
        rw [if_neg (by simp [hitems]), if_neg (by simp [hds])]
        dsimp only
        split
        · next hlen1 =>
          obtain ⟨t, ht⟩ := List.length_eq_one.1 hlen1
          rw [ht]
          rfl
        · rfl
      refine ⟨?_, fun _ => hfmt⟩
      rw [hfmt]
      exact ⟨fun h => absurd h hne, fun h => absurd h hds⟩

/-- C6 (witness): two qualifying items with quantities 2 and (defaulted) 1
render as `총3개) 이불 2개/베개`. -/
theorem formatItems_description_spec_witness :
    deliveryItems [⟨"이불", some 2, some "택배요청"⟩, ⟨"베개", none, some "채널추가무료배송"⟩] ≠ [] ∧
    formatItemsForDescription
      [⟨"이불", some 2, some "택배요청"⟩, ⟨"베개", none, some "채널추가무료배송"⟩] =
      "총3개) 이불 2개/베개" := by
  refine ⟨by decide, ?_⟩
  rw [(formatItems_description_spec
    [⟨"이불", some 2, some "택배요청"⟩, ⟨"베개", none, some "채널추가무료배송"⟩]).2 (by decide)]
  decide

/-! ## Writer infrastructure lemmas (C5, C9) -/

lemma applyWrites_cons (ws : Worksheet) (t : Nat × Nat × String) (l : List (Nat × Nat × String)) :
    applyWrites ws (t :: l) = applyWrites (setCell ws t.1 t.2.1 (.str t.2.2)) l := rfl

lemma applyWrites_append (ws : Worksheet) (l1 l2 : List (Nat × Nat × String)) :
    applyWrites ws (l1 ++ l2) = applyWrites (applyWrites ws l1) l2 := by
  simp [applyWrites, List.foldl_append]

lemma condWrite_eq_applyWrites (ws : Worksheet) (r : Nat) (co : Option Nat) (v : String) :
    condWrite ws r co v = applyWrites ws (optWrite r co v) := by
  cases co with
  | none => rfl
  | some c =>
    show (if v = "" then ws else setCell ws r c (.str v)) =
      applyWrites ws (if v = "" then [] else [(r, c, v)])
    by_cases hv : v = ""
    · rw [if_pos hv, if_pos hv]
      rfl
    · rw [if_neg hv, if_neg hv]
      rfl

lemma allWrites_cons (cmap : String → Option Nat) (cust : CustomerInfo) (it : String)
    (g : CellVal × List Nat) (gs : List (CellVal × List Nat)) :
    allWrites cmap cust it (g :: gs) =
      (if g.2.isEmpty then [] else groupWrites cmap cust it (g.2.headD 0 + 2))
        ++ allWrites cmap cust it gs := rfl

lemma lastWrittenVal_cons (t : Nat × Nat × String) (ts : List (Nat × Nat × String))
    (r c : Nat) :
    lastWrittenVal (t :: ts) r c =
      match lastWrittenVal ts r c with
      | some v => some v
      | none => if r = t.1 ∧ c = t.2.1 then some t.2.2 else none := rfl

lemma lastWrittenVal_cons_some {ts : List (Nat × Nat × String)} {r c : Nat} {w : String}
    (t : Nat × Nat × String) (hlv : lastWrittenVal ts r c = some w) :
    lastWrittenVal (t :: ts) r c = some w := by
  rw [lastWrittenVal_cons, hlv]

lemma lastWrittenVal_cons_none {ts : List (Nat × Nat × String)} {r c : Nat}
    (t : Nat × Nat × String) (hlv : lastWrittenVal ts r c = none) :
    lastWrittenVal (t :: ts) r c =
      if r = t.1 ∧ c = t.2.1 then some t.2.2 else none := by
  rw [lastWrittenVal_cons, hlv]

lemma writeGroupRow_eq_applyWrites (cmap : String → Option Nat) (cust : CustomerInfo)
    (it : String) (r : Nat) (ws : Worksheet) :
    writeGroupRow cmap cust it r ws = applyWrites ws (groupWrites cmap cust it r) := by
  unfold writeGroupRow groupWrites
  rw [condWrite_eq_applyWrites, condWrite_eq_applyWrites, condWrite_eq_applyWrites,
    condWrite_eq_applyWrites, condWrite_eq_applyWrites]
  rw [applyWrites_append, applyWrites_append, applyWrites_append, applyWrites_append]

/-- The writer's per-group fold, split into its write sequence and its
group count. -/
lemma updateFold_spec (cmap : String → Option Nat) (cust : CustomerInfo) (it : String) :
    ∀ (groups : List (CellVal × List Nat)) (ws : Worksheet) (k : Nat),
      groups.foldl (fun (acc : Worksheet × Nat) g =>
        if g.2.isEmpty then acc
        else (writeGroupRow cmap cust it (g.2.headD 0 + 2) acc.1, acc.2 + 1)) (ws, k) =
      (applyWrites ws (allWrites cmap cust it groups),
        k + (groups.filter (fun g => !g.2.isEmpty)).length)
  | [], ws, k => by simp [allWrites, applyWrites]
  | g :: gs, ws, k => by
    rw [List.foldl_cons]
    by_cases hg : g.2.isEmpty
    · rw [if_pos hg, updateFold_spec cmap cust it gs ws k, allWrites_cons, if_pos hg,
        List.nil_append, List.filter_cons, if_neg (by simp [hg])]
    · rw [if_neg hg, updateFold_spec cmap cust it gs _ (k + 1), writeGroupRow_eq_applyWrites,
        allWrites_cons, if_neg hg, applyWrites_append, List.filter_cons,
        if_pos (by simp [hg])]
      simp only [Prod.mk.injEq, List.length_cons]
      exact ⟨trivial, by omega⟩

/-- Cell contents after a write list: the last write to that cell, or the
original content. -/
lemma applyWrites_cell (l : List (Nat × Nat × String)) :
    ∀ (ws : Worksheet) (r c : Nat),
      (applyWrites ws l).cell r c =
        match lastWrittenVal l r c with
        | some v => CellVal.str v
        | none => ws.cell r c := by
  induction l with
  | nil => intro ws r c; rfl
  | cons t ts ih =>
    intro ws r c
    rw [applyWrites_cons, ih, lastWrittenVal_cons]
    cases hlv : lastWrittenVal ts r c with
    | some v => rfl
    | none =>
      show (setCell ws t.1 t.2.1 (CellVal.str t.2.2)).cell r c =
        (match (if r = t.1 ∧ c = t.2.1 then some t.2.2 else none) with
         | some v => CellVal.str v
         | none => ws.cell r c)
      unfold setCell
      by_cases hc : r = t.1 ∧ c = t.2.1 <;> simp [hc]

lemma optWrite_mem {t : Nat × Nat × String} {r : Nat} {co : Option Nat} {v : String}
    (h : t ∈ optWrite r co v) : t.1 = r ∧ co = some t.2.1 := by
  cases co with
  | none => cases h
  | some c =>
    rw [show optWrite r (some c) v = if v = "" then [] else [(r, c, v)] from rfl] at h
    by_cases hv : v = ""
    · rw [if_pos hv] at h
      cases h
    · rw [if_neg hv] at h
      simp at h
      subst h
      exact ⟨rfl, rfl⟩

lemma groupWrites_mem {t : Nat × Nat × String} {cmap : String → Option Nat}
    {cust : CustomerInfo} {it : String} {r : Nat} (h : t ∈ groupWrites cmap cust it r) :
    t.1 = r ∧ ∃ name ∈ theFiveHeaders, cmap name = some t.2.1 := by
  unfold groupWrites at h
  simp only [List.mem_append] at h
  rcases h with ((((h | h) | h) | h) | h)
  · obtain ⟨h1, h2⟩ := optWrite_mem h
    exact ⟨h1, "수하인명", by simp [theFiveHeaders], h2⟩
  · obtain ⟨h1, h2⟩ := optWrite_mem h
    exact ⟨h1, "수하인전화번호", by simp [theFiveHeaders], h2⟩
  · obtain ⟨h1, h2⟩ := optWrite_mem h
    exact ⟨h1, "수하인핸드폰번호", by simp [theFiveHeaders], h2⟩
  · obtain ⟨h1, h2⟩ := optWrite_mem h
    exact ⟨h1, "수하인주소", by simp [theFiveHeaders], h2⟩
  · obtain ⟨h1, h2⟩ := optWrite_mem h
    exact ⟨h1, "품목명", by simp [theFiveHeaders], h2⟩

lemma allWrites_mem {t : Nat × Nat × String} {cmap : String → Option Nat}
    {cust : CustomerInfo} {it : String} :
    ∀ {groups : List (CellVal × List Nat)}, t ∈ allWrites cmap cust it groups →
      ∃ g ∈ groups, ¬g.2.isEmpty = true ∧ t.1 = g.2.headD 0 + 2 ∧
        ∃ name ∈ theFiveHeaders, cmap name = some t.2.1 := by
  intro groups
  induction groups with
  | nil => intro h; cases h
  | cons g gs ih =>
    intro h
    unfold allWrites at h
    rw [List.mem_append] at h
    rcases h with h | h
    · by_cases hg : g.2.isEmpty
      · rw [if_pos hg] at h; cases h
      · rw [if_neg hg] at h
        obtain ⟨h1, h2⟩ := groupWrites_mem h
        exact ⟨g, List.mem_cons_self g gs, by simpa using hg, h1, h2⟩
    · obtain ⟨g', hg', rest⟩ := ih h
      exact ⟨g', List.mem_cons_of_mem g hg', rest⟩

lemma lastWrittenVal_mem :
    ∀ {l : List (Nat × Nat × String)} {r c : Nat} {v : String},
      lastWrittenVal l r c = some v → ∃ t ∈ l, t.1 = r ∧ t.2.1 = c := by
  intro l
  induction l with
  | nil => intro r c v h; cases h
  | cons t ts ih =>
    intro r c v h
    cases hlv : lastWrittenVal ts r c with
    | some w =>
      obtain ⟨u, hu, rest⟩ := ih hlv
      exact ⟨u, List.mem_cons_of_mem t hu, rest⟩
    | none =>
      rw [lastWrittenVal_cons_none t hlv] at h
      by_cases hc : r = t.1 ∧ c = t.2.1
      · exact ⟨t, List.mem_cons_self t ts, hc.1.symm, hc.2.symm⟩
      · rw [if_neg hc] at h
        cases h

/-- Any cell changed by the write sequence of a writer call is a write
target. -/
lemma applyWrites_changed_target {ws : Worksheet} {cust : CustomerInfo} {it : String}
    {groups : List (CellVal × List Nat)} {r c : Nat}
    (hne : (applyWrites ws (allWrites (colMapping ws) cust it groups)).cell r c ≠ ws.cell r c) :
    writeTarget ws groups r c := by
  rw [applyWrites_cell] at hne
  cases hlv : lastWrittenVal (allWrites (colMapping ws) cust it groups) r c with
  | none => rw [hlv] at hne; exact absurd rfl hne
  | some v =>
    obtain ⟨t, ht, h1, h2⟩ := lastWrittenVal_mem hlv
    obtain ⟨g, hgmem, hgne, hr, name, hname, hcol⟩ := allWrites_mem ht
    exact ⟨g, hgmem, hgne, by omega, name, hname, by rw [← h2]; exact hcol⟩

/-! ### Grouping facts -/

lemma insertGroup_nonempty :
    ∀ (groups : List (CellVal × List Nat)) (v : CellVal) (idx : Nat),
      (∀ g ∈ groups, g.2 ≠ []) → ∀ g ∈ insertGroup groups v idx, g.2 ≠ []
  | [], v, idx, _ => by
    intro g hg
    simp only [insertGroup, List.mem_singleton] at hg
    subst hg
    simp
  | (k, l) :: rest, v, idx, h => by
    intro g hg
    unfold insertGroup at hg
    split at hg
    · rcases List.mem_cons.1 hg with hg | hg
      · subst hg
        simp
      · exact h _ (List.mem_cons_of_mem _ hg)
    · rcases List.mem_cons.1 hg with hg | hg
      · subst hg
        exact h _ (List.mem_cons_self _ _)
      · exact insertGroup_nonempty rest v idx (fun g' hg' => h _ (List.mem_cons_of_mem _ hg')) g hg

lemma groupFold_nonempty (ws : Worksheet) (tc : Nat) :
    ∀ (idxs : List Nat) (acc groups : List (CellVal × List Nat)),
      (∀ g ∈ acc, g.2 ≠ []) → groupFold ws tc idxs acc = .ok groups →
      ∀ g ∈ groups, g.2 ≠ []
  | [], acc, groups, hacc, h => by
    unfold groupFold at h
    injection h with h
    subst h
    exact hacc
  | idx :: rest, acc, groups, hacc, h => by
    unfold groupFold at h
    split at h
    · split at h
      · exact groupFold_nonempty ws tc rest acc groups hacc h
      · exact groupFold_nonempty ws tc rest _ groups
          (insertGroup_nonempty acc _ idx hacc) h
    · cases h

lemma insertAsc_length (n : Nat) : ∀ (l : List Nat), (insertAsc n l).length = l.length + 1
  | [] => rfl
  | x :: xs => by
    unfold insertAsc
    split
    · rfl
    · simp [insertAsc_length n xs]

lemma sortNat_length (l : List Nat) : (sortNat l).length = l.length := by
  suffices h : ∀ (l acc : List Nat),
      (l.foldl (fun acc n => insertAsc n acc) acc).length = acc.length + l.length by
    simpa [sortNat] using h l []
  intro l
  induction l with
  | nil => intro acc; simp
  | cons x xs ih =>
    intro acc
    rw [List.foldl_cons, ih, insertAsc_length, List.length_cons]
    omega

lemma groupByOrderTime_nonempty {ws : Worksheet} {indices : List Nat}
    {groups : List (CellVal × List Nat)}
    (hg : groupByOrderTime ws indices = .ok groups) : ∀ g ∈ groups, g.2 ≠ [] := by
  unfold groupByOrderTime at hg
  split at hg
  · cases hg
  · next tc heq =>
    cases hfold : groupFold ws tc indices [] with
    | error e => rw [hfold] at hg; cases hg
    | ok gs =>
      rw [hfold] at hg
      injection hg with hg
      subst hg
      intro g hgmem
      obtain ⟨g', hg', hmap⟩ := List.mem_map.1 hgmem
      have hne : g'.2 ≠ [] := groupFold_nonempty ws tc indices [] gs (by simp) hfold g' hg'
      subst hmap
      intro hcontra
      apply hne
      have := congrArg List.length hcontra
      rw [sortNat_length] at this
      exact List.length_eq_zero.1 this

/-- C5: the writer updates one physical row per time group — row
`first_index + 2`, the lowest index of the group — touching only the five
mapped recipient columns, and its return value counts groups, not matched
rows. -/
theorem updateCustomerInfo_one_row_per_group (ws : Worksheet) (indices : List Nat)
    (cust : CustomerInfo) (receipt : Option ReceiptData)
    (groups : List (CellVal × List Nat)) (ws' : Worksheet) (cnt : Nat)
    (hg : groupByOrderTime ws indices = .ok groups)
    (hu : updateCustomerInfo ws indices cust receipt = .ok (ws', cnt)) :
    cnt = groups.length ∧
    ∀ r c, ws'.cell r c ≠ ws.cell r c → writeTarget ws groups r c := by
  unfold updateCustomerInfo at hu
  rw [hg] at hu
  have hu2 : (groups.foldl (fun (acc : Worksheet × Nat) g =>
      if g.2.isEmpty then acc
      else (writeGroupRow (colMapping ws) cust (writerItemsText receipt)
              (g.2.headD 0 + 2) acc.1, acc.2 + 1)) (ws, 0)) = (ws', cnt) :=
    Except.ok.inj hu
  rw [updateFold_spec] at hu2
  have hws : applyWrites ws (allWrites (colMapping ws) cust (writerItemsText receipt) groups)
      = ws' := congrArg Prod.fst hu2
  have hcnt : 0 + (groups.filter (fun g => !g.2.isEmpty)).length = cnt :=
    congrArg Prod.snd hu2
  constructor
  · rw [← hcnt, List.filter_eq_self.2 (fun g hgm => by
      simpa using groupByOrderTime_nonempty hg g hgm)]
    omega
  · intro r c hne
    rw [← hws] at hne
    exact applyWrites_changed_target hne

/-- C5 (witness): two rows sharing one order time form a single group; the
writer reports one updated block, writes the customer name into physical row
2 (the lower index), and leaves row 3 untouched. -/
theorem updateCustomerInfo_one_row_per_group_witness :
    groupByOrderTime wsPair [0, 1] = .ok wsPairGroups ∧
    updateCustomerInfo wsPair [0, 1] custKim none = .ok (wsPairUpd, 1) ∧
    (1 : Nat) = wsPairGroups.length ∧
    wsPairUpd.cell 2 2 = .str "홍길동" ∧
    wsPairUpd.cell 3 2 = wsPair.cell 3 2 :=
  ⟨by decide, by rfl,
   (updateCustomerInfo_one_row_per_group wsPair [0, 1] custKim none wsPairGroups
      wsPairUpd 1 (by decide) (by rfl)).1,
   by decide, by decide⟩

/-! ## Frame and idempotence infrastructure (C9) -/

lemma updateCustomerInfo_eq {ws : Worksheet} {indices : List Nat}
    {groups : List (CellVal × List Nat)} (cust : CustomerInfo) (receipt : Option ReceiptData)
    (hg : groupByOrderTime ws indices = .ok groups) :
    updateCustomerInfo ws indices cust receipt =
      .ok (applyWrites ws (allWrites (colMapping ws) cust (writerItemsText receipt) groups),
        (groups.filter (fun g => !g.2.isEmpty)).length) := by
  unfold updateCustomerInfo
  rw [hg]
  show Except.ok (groups.foldl (fun (acc : Worksheet × Nat) g =>
      if g.2.isEmpty then acc
      else (writeGroupRow (colMapping ws) cust (writerItemsText receipt)
              (g.2.headD 0 + 2) acc.1, acc.2 + 1)) (ws, 0)) = _
  rw [updateFold_spec, Nat.zero_add]

lemma applyUpdate_eq {ws : Worksheet} {indices : List Nat}
    {groups : List (CellVal × List Nat)} (cust : CustomerInfo) (receipt : Option ReceiptData)
    (hg : groupByOrderTime ws indices = .ok groups) :
    applyUpdate ws indices cust receipt =
      applyWrites ws (allWrites (colMapping ws) cust (writerItemsText receipt) groups) := by
  unfold applyUpdate
  rw [updateCustomerInfo_eq cust receipt hg]

lemma applyWrites_maxRow : ∀ (l : List (Nat × Nat × String)) (ws : Worksheet),
    (applyWrites ws l).maxRow = ws.maxRow
  | [], _ => rfl
  | t :: ts, ws => by rw [applyWrites_cons, applyWrites_maxRow ts]; rfl

lemma applyWrites_maxCol : ∀ (l : List (Nat × Nat × String)) (ws : Worksheet),
    (applyWrites ws l).maxCol = ws.maxCol
  | [], _ => rfl
  | t :: ts, ws => by rw [applyWrites_cons, applyWrites_maxCol ts]; rfl

lemma writeTarget_row_ge {ws : Worksheet} {groups : List (CellVal × List Nat)} {r c : Nat}
    (h : writeTarget ws groups r c) : 2 ≤ r := by
  obtain ⟨g, -, -, hr, -⟩ := h
  omega

/-- The frame fact for the raw write sequence: only write targets change. -/
lemma applyWrites_frame {ws : Worksheet} {cust : CustomerInfo} {it : String}
    {groups : List (CellVal × List Nat)} {r c : Nat}
    (hnt : ¬ writeTarget ws groups r c) :
    (applyWrites ws (allWrites (colMapping ws) cust it groups)).cell r c = ws.cell r c := by
  by_contra hne
  exact hnt (applyWrites_changed_target hne)

lemma foldl_congr_fun {α β : Type} {f g : β → α → β} :
    ∀ {l : List α}, (∀ b a, a ∈ l → f b a = g b a) → ∀ b, l.foldl f b = l.foldl g b := by
  intro l
  induction l with
  | nil => intro _ b; rfl
  | cons x xs ih =>
    intro h b
    rw [List.foldl_cons, List.foldl_cons, h b x (List.mem_cons_self x xs)]
    exact ih (fun b' a ha => h b' a (List.mem_cons_of_mem x ha)) _

lemma find?_congr_fun {α : Type} {p q : α → Bool} :
    ∀ {l : List α}, (∀ a ∈ l, p a = q a) → l.find? p = l.find? q := by
  intro l
  induction l with
  | nil => intro _; rfl
  | cons x xs ih =>
    intro h
    have hx := h x (List.mem_cons_self x xs)
    by_cases hq : q x = true
    · rw [List.find?_cons_of_pos _ (hx.trans hq), List.find?_cons_of_pos _ hq]
    · rw [List.find?_cons_of_neg _ (by rw [hx]; exact hq),
        List.find?_cons_of_neg _ hq]
      exact ih (fun a ha => h a (List.mem_cons_of_mem x ha))

lemma colMapping_congr {ws2 ws : Worksheet} (hmc : ws2.maxCol = ws.maxCol)
    (hrow1 : ∀ c, ws2.cell 1 c = ws.cell 1 c) (name : String) :
    colMapping ws2 name = colMapping ws name := by
  unfold colMapping
  rw [hmc]
  exact foldl_congr_fun (fun acc i _ => by rw [hrow1 (i + 1)]) none

lemma headerStr_congr {ws2 ws : Worksheet} (hrow1 : ∀ c, ws2.cell 1 c = ws.cell 1 c)
    (c : Nat) : headerStr ws2 c = headerStr ws c := by
  unfold headerStr
  rw [hrow1 c]

lemma colIdx1_congr {ws2 ws : Worksheet} (hmr : ws2.maxRow = ws.maxRow)
    (hmc : ws2.maxCol = ws.maxCol) (hrow1 : ∀ c, ws2.cell 1 c = ws.cell 1 c)
    (name : String) : colIdx1 ws2 name = colIdx1 ws name := by
  unfold colIdx1
  rw [hmr, hmc]
  by_cases h0 : ws.maxRow = 0
  · rw [if_pos h0, if_pos h0]
  · rw [if_neg h0, if_neg h0,
      find?_congr_fun (fun i _ => by rw [headerStr_congr hrow1 (i + 1)])]

lemma colMapping_mem_header {ws : Worksheet} {name : String} {c : Nat}
    (h : colMapping ws name = some c) : ws.cell 1 c = .str name := by
  unfold colMapping at h
  have aux : ∀ (l : List Nat) (acc : Option Nat),
      (∀ c0, acc = some c0 → ws.cell 1 c0 = .str name) →
      l.foldl (fun acc i => if ws.cell 1 (i + 1) = .str name then some (i + 1) else acc) acc
        = some c →
      ws.cell 1 c = .str name := by
    intro l
    induction l with
    | nil =>
      intro acc hacc h
      exact hacc c h
    | cons i is ih =>
      intro acc hacc h
      rw [List.foldl_cons] at h
      by_cases hcell : ws.cell 1 (i + 1) = .str name
      · refine ih _ ?_ h
        intro c0 hc0
        rw [if_pos hcell] at hc0
        injection hc0 with hc0
        rw [← hc0]
        exact hcell
      · refine ih _ ?_ h
        intro c0 hc0
        rw [if_neg hcell] at hc0
        exact hacc c0 hc0
  exact aux _ none (fun c0 hc0 => Option.noConfusion hc0) h

lemma colIdx1_header {ws : Worksheet} {name : String} {c : Nat}
    (h : colIdx1 ws name = some c) : headerStr ws c = name := by
  unfold colIdx1 at h
  split at h
  · cases h
  · obtain ⟨i, hi, hic⟩ := Option.map_eq_some'.1 h
    have := List.find?_some hi
    rw [← hic]
    exact eq_of_beq this

lemma groupFold_cons (ws : Worksheet) (tc idx : Nat) (rest : List Nat)
    (groups : List (CellVal × List Nat)) :
    groupFold ws tc (idx :: rest) groups =
      if idx + 2 ≤ ws.maxRow then
        if isNA (ws.cell (idx + 2) tc) then groupFold ws tc rest groups
        else groupFold ws tc rest (insertGroup groups (ws.cell (idx + 2) tc) idx)
      else .error "KeyError" := rfl

lemma groupFold_congr {ws2 ws : Worksheet} {tc : Nat} (hmr : ws2.maxRow = ws.maxRow)
    (hcell : ∀ i, ws2.cell (i + 2) tc = ws.cell (i + 2) tc) :
    ∀ (idxs : List Nat) (acc : List (CellVal × List Nat)),
      groupFold ws2 tc idxs acc = groupFold ws tc idxs acc
  | [], _ => rfl
  | idx :: rest, acc => by
    rw [groupFold_cons, groupFold_cons, hmr, hcell idx]
    by_cases h1 : idx + 2 ≤ ws.maxRow
    · rw [if_pos h1, if_pos h1]
      by_cases h2 : isNA (ws.cell (idx + 2) tc)
      · rw [if_pos h2, if_pos h2]
        exact groupFold_congr hmr hcell rest acc
      · rw [if_neg h2, if_neg h2]
        exact groupFold_congr hmr hcell rest _
    · rw [if_neg h1, if_neg h1]

lemma groupWrites_congr {c2 c1 : String → Option Nat} (h : ∀ n, c2 n = c1 n)
    (cust : CustomerInfo) (it : String) (r : Nat) :
    groupWrites c2 cust it r = groupWrites c1 cust it r := by
  unfold groupWrites
  rw [h, h, h, h, h]

lemma allWrites_congr {c2 c1 : String → Option Nat} (h : ∀ n, c2 n = c1 n)
    (cust : CustomerInfo) (it : String) :
    ∀ groups : List (CellVal × List Nat),
      allWrites c2 cust it groups = allWrites c1 cust it groups
  | [] => rfl
  | g :: gs => by
    rw [allWrites_cons, allWrites_cons, groupWrites_congr h, allWrites_congr h cust it gs]

lemma groupByOrderTime_eq {ws : Worksheet} {indices : List Nat} {tc : Nat}
    {gs : List (CellVal × List Nat)}
    (htc : colIdx1 ws "주문시작시각" = some tc)
    (hf : groupFold ws tc indices [] = .ok gs) :
    groupByOrderTime ws indices = .ok (gs.map (fun g => (g.1, sortNat g.2))) := by
  unfold groupByOrderTime
  rw [htc]
  show (match groupFold ws tc indices [] with
        | Except.error e => Except.error e
        | Except.ok groups =>
          Except.ok (groups.map (fun (g : CellVal × List Nat) => (g.1, sortNat g.2)))) = _
  rw [hf]

lemma groupByOrderTime_inv {ws : Worksheet} {indices : List Nat}
    {groups : List (CellVal × List Nat)}
    (hg : groupByOrderTime ws indices = .ok groups) :
    ∃ tc gs, colIdx1 ws "주문시작시각" = some tc ∧ groupFold ws tc indices [] = .ok gs ∧
      groups = gs.map (fun g => (g.1, sortNat g.2)) := by
  unfold groupByOrderTime at hg
  split at hg
  · cases hg
  · next tc htc =>
    split at hg
    · cases hg
    · next gs hf =>
      exact ⟨tc, gs, htc, hf, (Except.ok.inj hg).symm⟩

/-- C9: the writer only ever mutates the five mapped recipient columns, and
only in row `first_index + 2` of each time group; all other cells — the
header row, the date/time/product/option columns, the other rows of each
group — keep their values, and re-running the writer with the same inputs
leaves every cell of the once-updated sheet unchanged. -/
theorem updateCustomerInfo_frame_idempotent (ws : Worksheet) (indices : List Nat)
    (cust : CustomerInfo) (receipt : Option ReceiptData)
    (groups : List (CellVal × List Nat))
    (hg : groupByOrderTime ws indices = .ok groups) :
    (∀ r c, ¬ writeTarget ws groups r c →
      (applyUpdate ws indices cust receipt).cell r c = ws.cell r c) ∧
    (∀ r c,
      (applyUpdate (applyUpdate ws indices cust receipt) indices cust receipt).cell r c =
        (applyUpdate ws indices cust receipt).cell r c) := by
  have h1 := applyUpdate_eq cust receipt hg
  constructor
  · intro r c hnt
    rw [h1]
    exact applyWrites_frame hnt
  · obtain ⟨tc, gs, htc, hf, hmap⟩ := groupByOrderTime_inv hg
    have hfive : ∀ n ∈ theFiveHeaders, n ≠ "주문시작시각" := by decide
    have hmr : (applyWrites ws (allWrites (colMapping ws) cust (writerItemsText receipt)
        groups)).maxRow = ws.maxRow := applyWrites_maxRow _ ws
    have hmc : (applyWrites ws (allWrites (colMapping ws) cust (writerItemsText receipt)
        groups)).maxCol = ws.maxCol := applyWrites_maxCol _ ws
    have hrow1 : ∀ c, (applyWrites ws (allWrites (colMapping ws) cust
        (writerItemsText receipt) groups)).cell 1 c = ws.cell 1 c := fun c =>
      applyWrites_frame (fun ht => by have := writeTarget_row_ge ht; omega)
    have hcellt : ∀ i, (applyWrites ws (allWrites (colMapping ws) cust
        (writerItemsText receipt) groups)).cell (i + 2) tc = ws.cell (i + 2) tc := by
      intro i
      apply applyWrites_frame
      intro ht
      obtain ⟨g, -, -, -, name, hname, hcmap⟩ := ht
      have hhdr : headerStr ws tc = name := by
        unfold headerStr
        rw [colMapping_mem_header hcmap]
      exact hfive name hname (hhdr.symm.trans (colIdx1_header htc))
    have htc2 : colIdx1 (applyWrites ws (allWrites (colMapping ws) cust
        (writerItemsText receipt) groups)) "주문시작시각" = some tc := by
      rw [colIdx1_congr hmr hmc hrow1]
      exact htc
    have hf2 : groupFold (applyWrites ws (allWrites (colMapping ws) cust
        (writerItemsText receipt) groups)) tc indices [] = .ok gs := by
      rw [groupFold_congr hmr hcellt]
      exact hf
    have hg2 : groupByOrderTime (applyWrites ws (allWrites (colMapping ws) cust
        (writerItemsText receipt) groups)) indices = .ok groups := by
      rw [groupByOrderTime_eq htc2 hf2, hmap]
    have hcm := colMapping_congr hmc hrow1
    intro r c
    rw [h1, applyUpdate_eq cust receipt hg2, allWrites_congr hcm, applyWrites_cell]
    cases hlv : lastWrittenVal (allWrites (colMapping ws) cust (writerItemsText receipt)
        groups) r c with
    | none => rfl
    | some v =>
      rw [applyWrites_cell, hlv]

/-- C9 (witness): on the two-row worksheet, the header cell above the name
column is untouched, and a second writer run changes nothing. -/
theorem updateCustomerInfo_frame_idempotent_witness :
    groupByOrderTime wsPair [0, 1] = .ok wsPairGroups ∧
    ¬ writeTarget wsPair wsPairGroups 1 2 ∧
    (applyUpdate wsPair [0, 1] custKim none).cell 1 2 = wsPair.cell 1 2 ∧
    (applyUpdate (applyUpdate wsPair [0, 1] custKim none) [0, 1] custKim none).cell 2 2 =
      (applyUpdate wsPair [0, 1] custKim none).cell 2 2 :=
  ⟨by decide, by decide,
   (updateCustomerInfo_frame_idempotent wsPair [0, 1] custKim none wsPairGroups
      (by decide)).1 1 2 (by decide),
   (updateCustomerInfo_frame_idempotent wsPair [0, 1] custKim none wsPairGroups
      (by decide)).2 2 2⟩

/-! ## `match_order` no-match outcome (C7) -/

/-- C7: when both validations pass, the option column is found, delivery
candidates exist, and the cascade accepts no row, `match_order` returns the
structured `no_match` result carrying the per-row diagnostics and the receipt
info — an outcome distinct from every `error` result, not an exception. -/
theorem matchOrder_noMatch_structured (ws : Worksheet) (receipt : ReceiptData)
    (cust : CustomerInfo) (debug : DebugInfo)
    (hvr : validateReceiptData receipt = true)
    (hvc : validateCustomerInfo cust = true)
    (hopt : (findOptionCol (sheetHeaders ws)).isSome = true)
    (hrows : (filteredRows ws).isEmpty = false)
    (hfind : findMatchingOrders receipt (sheetHeaders ws) (filteredRows ws) =
      .ok ([], debug)) :
    matchOrder (some ws) receipt cust =
      .noMatch debug receipt.approvedAt (receiptProductOf receipt) ∧
    ∀ msg, matchOrder (some ws) receipt cust ≠ .error msg := by
  have hmain : matchOrder (some ws) receipt cust =
      .noMatch debug receipt.approvedAt (receiptProductOf receipt) := by
    obtain ⟨k, hk⟩ := Option.isSome_iff_exists.1 hopt
    unfold matchOrder
    rw [hvr, hvc]
    rw [if_neg (by simp), if_neg (by simp)]
    dsimp only
    rw [hk]
    dsimp only
    rw [hrows]
    rw [if_neg (by simp)]
    rw [hfind]
  exact ⟨hmain, fun msg h => by rw [hmain] at h; exact MatchResult.noConfusion h⟩

/-- C7 (witness): a valid receipt and customer against one delivery-eligible
row whose date mismatches produce the structured no-match result with the
row's diagnostics. -/
theorem matchOrder_noMatch_structured_witness :
    validateReceiptData receiptBlanket = true ∧
    validateCustomerInfo custKim = true ∧
    findMatchingOrders receiptBlanket (sheetHeaders wsNoMatch) (filteredRows wsNoMatch) =
      .ok ([], debugNoMatch) ∧
    matchOrder (some wsNoMatch) receiptBlanket custKim =
      .noMatch debugNoMatch (some "2025-08-01 11:14:31") "주이패턴이불" :=
  ⟨by decide, by decide, by decide,
   (matchOrder_noMatch_structured wsNoMatch receiptBlanket custKim debugNoMatch
      (by decide) (by decide) (by decide) (by decide) (by decide)).1⟩

end RACompany
